import Mathlib

/-!
# Verification of the AgentDock communication scaffold

A shallow embedding of the repository's four source files:

* `conceptualize/packages/comm_protocol/__init__.py` — the `Envelope`
  pydantic model (construction with validation and defaults, JSON
  serialization and deserialization);
* `conceptualize/packages/agent_core/bus.py` — the `RedisBus` publish /
  subscribe client (payload extraction, parse-failure skipping, last-id
  tracking of the `subscribe` loop);
* `conceptualize/packages/agent_core/base_agent.py` — the `BaseAgent`
  recipient filter, dispatch loop and handler-failure isolation;
* `conceptualize/apps/captain/main.py` — the `CaptainAgent` handler.

Modelling conventions:

* JSON values are the inductive `Json` tree; JSON numbers are modelled as
  integers (the only numeric field in the protocol, `priority`, is an
  integer, and every number appearing in the repository is an integer).
* A Python `uuid.UUID` value is represented by its canonical string form
  (`str(uuid)`, 36 lowercase hyphenated hex characters), and a Python
  `datetime` by its canonical ISO-8601 rendering (`datetime.isoformat()`),
  the forms in which the system itself produces and transmits them.
  Supplied values are modelled for those canonical forms, on which the
  store/render round trip of the source is the identity.
* Python exceptions are modelled as `Except` values; `try/except` blocks
  become matches on the `Except`.
* The nondeterministic generators `uuid.uuid4()` and `datetime.utcnow()`
  are modelled by explicit parameters: 128 bits of entropy for the UUID,
  and a `DateTime` record for the clock reading.
-/

/-- A JSON value, as produced by Python's `json` module (numbers restricted
to integers, see the header note). Objects are association lists. -/
inductive Json where
  | null : Json
  | bool (b : Bool) : Json
  | num (n : Int) : Json
  | str (s : String) : Json
  | arr (elems : List Json) : Json
  | obj (fields : List (String × Json)) : Json

/-- Python-`dict` lookup over an association list built by inserting the
pairs in order: a duplicated key keeps the **last** value, exactly as
`json.loads` and `dict(...)` do. -/
def dictGet (fields : List (String × Json)) (key : String) : Option Json :=
  fields.foldl (fun acc kv => if kv.1 == key then some kv.2 else acc) none

/-- Lowercase hexadecimal digit of `n % 16`, as Python's `"%x"` formatting
produces. -/
def hexDigit (n : Nat) : Char :=
  match n % 16 with
  | 0 => '0' | 1 => '1' | 2 => '2' | 3 => '3' | 4 => '4'
  | 5 => '5' | 6 => '6' | 7 => '7' | 8 => '8' | 9 => '9'
  | 10 => 'a' | 11 => 'b' | 12 => 'c' | 13 => 'd' | 14 => 'e'
  | _ => 'f'

/-- Decimal digit of `n % 10`. -/
def decDigit (n : Nat) : Char :=
  match n % 10 with
  | 0 => '0' | 1 => '1' | 2 => '2' | 3 => '3' | 4 => '4'
  | 5 => '5' | 6 => '6' | 7 => '7' | 8 => '8' | _ => '9'

/-- A lowercase hexadecimal character (the alphabet of `str(uuid)`). -/
def isHexLowerChar (c : Char) : Bool :=
  ('0' ≤ c && c ≤ '9') || ('a' ≤ c && c ≤ 'f')

/-- A decimal digit character. -/
def isDecChar (c : Char) : Bool :=
  '0' ≤ c && c ≤ '9'

/-- Hex nibble `i` (counting from the least significant) of `n`, rendered
as a lowercase hex character. -/
def nib (n i : Nat) : Char := hexDigit (n / 16 ^ i % 16)

/-- The 128-bit integer underlying `uuid.uuid4()` for entropy `r`:
CPython's `uuid.UUID(bytes=os.urandom(16), version=4)` keeps the 128
random bits except that it forces the variant bits (`10` at the top of
byte 8) and the version nibble (`4` at the top of byte 6). -/
def uuid4Int (r : Nat) : Nat :=
  let n := r % 2 ^ 128
  let n := (n &&& (2 ^ 128 - 1 - (0xc000 <<< 48))) ||| (0x8000 <<< 48)
  let n := (n &&& (2 ^ 128 - 1 - (0xf000 <<< 64))) ||| (0x4000 <<< 64)
  n

/-- The canonical 8-4-4-4-12 hyphenated character rendering of a 128-bit
UUID value, most significant nibble first (`str(uuid.UUID(int=n))`). -/
def uuidChars (n : Nat) : List Char :=
  [nib n 31, nib n 30, nib n 29, nib n 28, nib n 27, nib n 26, nib n 25, nib n 24,
   '-', nib n 23, nib n 22, nib n 21, nib n 20,
   '-', nib n 19, nib n 18, nib n 17, nib n 16,
   '-', nib n 15, nib n 14, nib n 13, nib n 12,
   '-', nib n 11, nib n 10, nib n 9, nib n 8,
   nib n 7, nib n 6, nib n 5, nib n 4, nib n 3, nib n 2, nib n 1, nib n 0]

/-- `str(uuid.uuid4())` for entropy `r`: the canonical string of the
version-4 UUID built from `r`. -/
def uuid4Str (r : Nat) : String := String.mk (uuidChars (uuid4Int r))

/-- Consume exactly `k` lowercase-hex characters, returning the remaining
characters, or `none` if fewer than `k` are available or one is not hex. -/
def hexRun : Nat → List Char → Option (List Char)
  | 0, cs => some cs
  | _ + 1, [] => none
  | k + 1, c :: cs => if isHexLowerChar c then hexRun k cs else none

/-- Consume exactly `k` decimal digits. -/
def decRun : Nat → List Char → Option (List Char)
  | 0, cs => some cs
  | _ + 1, [] => none
  | k + 1, c :: cs => if isDecChar c then decRun k cs else none

/-- The canonical UUID string shape: 8-4-4-4-12 lowercase hex groups
separated by hyphens (the shape of `str(uuid)`, which pydantic's UUID
field accepts and re-renders unchanged). -/
def isUuidCanonical (s : String) : Bool :=
  match hexRun 8 s.data with
  | some ('-' :: cs) =>
    match hexRun 4 cs with
    | some ('-' :: cs) =>
      match hexRun 4 cs with
      | some ('-' :: cs) =>
        match hexRun 4 cs with
        | some ('-' :: cs) => hexRun 12 cs == some []
        | _ => false
      | _ => false
    | _ => false
  | _ => false

/-- A clock reading, the fields of a Python naive `datetime` as produced
by `datetime.utcnow()`. -/
structure DateTime where
  year : Nat
  month : Nat
  day : Nat
  hour : Nat
  minute : Nat
  second : Nat
  microsecond : Nat
deriving DecidableEq, Repr

/-- Two fixed-width decimal digits of `n` (Python's `%02d`). -/
def pad2 (n : Nat) : List Char :=
  [decDigit (n / 10), decDigit n]

/-- Four fixed-width decimal digits of `n` (Python's `%04d`). -/
def pad4 (n : Nat) : List Char :=
  [decDigit (n / 1000), decDigit (n / 100), decDigit (n / 10), decDigit n]

/-- Six fixed-width decimal digits of `n` (Python's `%06d`). -/
def pad6 (n : Nat) : List Char :=
  [decDigit (n / 100000), decDigit (n / 10000), decDigit (n / 1000),
   decDigit (n / 100), decDigit (n / 10), decDigit n]

namespace DateTime

/-- `datetime.isoformat()`: `YYYY-MM-DDTHH:MM:SS`, extended with
`.ffffff` exactly when the microsecond field is nonzero. -/
def isoformat (d : DateTime) : String :=
  String.mk
    (pad4 d.year ++ '-' :: pad2 d.month ++ '-' :: pad2 d.day ++
     'T' :: pad2 d.hour ++ ':' :: pad2 d.minute ++ ':' :: pad2 d.second ++
     (if d.microsecond == 0 then [] else '.' :: pad6 d.microsecond))

end DateTime

/-- The canonical ISO-8601 timestamp shape, the image of
`DateTime.isoformat`: `YYYY-MM-DDTHH:MM:SS` with an optional `.ffffff`
fraction. Pydantic's datetime field accepts these forms and its JSON
encoder (`isoformat`) re-renders them unchanged. -/
def isIsoTs (s : String) : Bool :=
  match decRun 4 s.data with
  | some ('-' :: cs) =>
    match decRun 2 cs with
    | some ('-' :: cs) =>
      match decRun 2 cs with
      | some ('T' :: cs) =>
        match decRun 2 cs with
        | some (':' :: cs) =>
          match decRun 2 cs with
          | some (':' :: cs) =>
            match decRun 2 cs with
            | some [] => true
            | some ('.' :: cs) => decRun 6 cs == some []
            | _ => false
          | _ => false
        | _ => false
      | _ => false
    | _ => false
  | _ => false

namespace comm_protocol

/-- The `recipient` field's type: `Union[str, List[str], Literal["broadcast"]]`.
The sentinel `"broadcast"` is itself a string, hence a `single`. -/
inductive Recipient where
  | single (s : String) : Recipient
  | list (ss : List String) : Recipient
deriving DecidableEq, Repr

/-- The `Envelope` pydantic model: the typed message envelope used on the
internal communication bus. `message_id` carries `str(uuid)` and `ts`
carries `datetime.isoformat()` (see the header note on canonical string
representation). -/
structure Envelope where
  message_id : String
  ts : String
  sender : String
  recipient : Recipient
  priority : Int
  kind : String
  content : List (String × Json)

/-- `kind: Literal["request", "response", "notification", "command"]`. -/
def kindValid (k : String) : Bool :=
  k == "request" || k == "response" || k == "notification" || k == "command"

/-- The keyword arguments of an `Envelope(...)` construction call: `none`
means the caller omitted the field. -/
structure CtorArgs where
  message_id : Option String := none
  ts : Option String := none
  sender : Option String := none
  recipient : Option Recipient := none
  priority : Option Int := none
  content : Option (List (String × Json)) := none
  kind : Option String := none

/-- `Envelope(...)` construction, as pydantic validates it:

* `sender`, `recipient`, `kind` are required (`Field(...)` / no default);
  omitting one raises a validation error;
* `kind` must be one of the four literal tags;
* `priority` is `conint(ge=1, le=5)`, defaulting to `3` when omitted;
* `content` defaults to the empty mapping;
* `message_id` defaults to `str(uuid.uuid4())` computed from the ambient
  entropy `r`, and `ts` to `utcnow().isoformat()` from the ambient clock
  `now`; supplied values must be canonical (header note) — pydantic parses
  them into a `UUID` / `datetime` and rejects malformed text.

Pydantic validates supplied values only (`default_factory` results and
literal defaults are not re-validated); since the defaults `3`,
`str(uuid4())` and `isoformat()` all satisfy their own constraints, the
checks below are phrased over the supplied `Option` values
(`Option.all`), which is extensionally the same. -/
def mkEnvelope (args : CtorArgs) (r : Nat) (now : DateTime) :
    Except String Envelope :=
  match args.sender, args.recipient, args.kind with
  | some sender, some recipient, some kind =>
    if kindValid kind then
      if args.priority.all (fun p => decide (1 ≤ p) && decide (p ≤ 5)) then
        if args.message_id.all isUuidCanonical then
          if args.ts.all isIsoTs then
            Except.ok
              { message_id := args.message_id.getD (uuid4Str r),
                ts := args.ts.getD now.isoformat,
                sender := sender,
                recipient := recipient,
                priority := args.priority.getD 3,
                kind := kind,
                content := args.content.getD [] }
          else Except.error "invalid datetime: ts"
        else Except.error "invalid uuid: message_id"
      else Except.error "priority out of range"
    else Except.error "unexpected value: kind"
  | none, _, _ => Except.error "field required: sender"
  | some _, none, _ => Except.error "field required: recipient"
  | some _, some _, none => Except.error "field required: kind"

/-- The schema constraints an envelope taken out of the system satisfies
(the conditions `mkEnvelope` enforces): a legal `kind` tag, `priority`
within 1–5, and canonical `message_id` / `ts` strings. `sender`,
`recipient` and `content` carry no further constraint. -/
def Envelope.valid (e : Envelope) : Bool :=
  kindValid e.kind && (decide (1 ≤ e.priority) && decide (e.priority ≤ 5)) &&
  isUuidCanonical e.message_id && isIsoTs e.ts

/-- The JSON rendering of a `recipient` value: a plain string or an array
of strings. -/
def Recipient.toJson : Recipient → Json
  | .single s => Json.str s
  | .list ss => Json.arr (ss.map Json.str)

/-- `Envelope.json()`: pydantic renders the model as a JSON object in
field-declaration order, the UUID via `str` and the datetime via
`isoformat` (the `json_encoders` of `Config`) — both already the stored
canonical strings here. -/
def Envelope.toJson (e : Envelope) : Json :=
  Json.obj
    [("message_id", Json.str e.message_id),
     ("ts", Json.str e.ts),
     ("sender", Json.str e.sender),
     ("recipient", e.recipient.toJson),
     ("priority", Json.num e.priority),
     ("kind", Json.str e.kind),
     ("content", Json.obj e.content)]

/-- Decode the elements of a JSON array as strings (`List[str]`
validation, element by element). -/
def decodeStrList : List Json → Except String (List String)
  | [] => Except.ok []
  | Json.str s :: rest => (decodeStrList rest).map (fun ss => s :: ss)
  | _ :: _ => Except.error "recipient list element is not a string"

/-- Decode a JSON value into a `recipient`: pydantic tries the `Union`
members in order — `str` first, then `List[str]`. -/
def Recipient.fromJson : Json → Except String Recipient
  | Json.str s => Except.ok (Recipient.single s)
  | Json.arr elems => (decodeStrList elems).map Recipient.list
  | _ => Except.error "recipient is neither a string nor a list"

/-- `Envelope.parse_obj`: validate a decoded JSON value as an `Envelope`.
Each present field is decoded at its declared type; absent optional
fields fall back to the same defaults as construction (pydantic runs the
`default_factory`s, hence the same ambient `r` / `now` parameters), and
extra keys are ignored (pydantic v1's default). -/
def Envelope.parseJson (j : Json) (r : Nat) (now : DateTime) :
    Except String Envelope := do
  match j with
  | Json.obj fields => do
    let message_id ← match dictGet fields "message_id" with
      | none => pure (none : Option String)
      | some (Json.str s) => pure (some s)
      | some _ => Except.error "message_id is not a string"
    let ts ← match dictGet fields "ts" with
      | none => pure (none : Option String)
      | some (Json.str s) => pure (some s)
      | some _ => Except.error "ts is not a string"
    let sender ← match dictGet fields "sender" with
      | none => pure (none : Option String)
      | some (Json.str s) => pure (some s)
      | some _ => Except.error "sender is not a string"
    let recipient ← match dictGet fields "recipient" with
      | none => pure (none : Option Recipient)
      | some j => do
        let rc ← Recipient.fromJson j
        pure (some rc)
    let priority ← match dictGet fields "priority" with
      | none => pure (none : Option Int)
      | some (Json.num n) => pure (some n)
      | some _ => Except.error "priority is not an integer"
    let kind ← match dictGet fields "kind" with
      | none => pure (none : Option String)
      | some (Json.str s) => pure (some s)
      | some _ => Except.error "kind is not a string"
    let content ← match dictGet fields "content" with
      | none => pure (none : Option (List (String × Json)))
      | some (Json.obj fs) => pure (some fs)
      | some _ => Except.error "content is not an object"
    mkEnvelope { message_id := message_id, ts := ts, sender := sender,
                 recipient := recipient, priority := priority,
                 content := content, kind := kind } r now
  | _ => Except.error "envelope is not a JSON object"

/-- A raw wire text, identified by its JSON-parse outcome: either text
that parses as the JSON value `j`, or text that is not valid JSON. -/
inductive Raw where
  | json (j : Json) : Raw
  | invalid (s : String) : Raw

/-- `Envelope.parse_raw`: parse the wire text as JSON, then validate the
result as an `Envelope`. -/
def Envelope.parseRaw (raw : Raw) (r : Nat) (now : DateTime) :
    Except String Envelope :=
  match raw with
  | Raw.json j => Envelope.parseJson j r now
  | Raw.invalid _ => Except.error "invalid JSON"

/-- The wire text published for an envelope: the text whose JSON parse is
`e.toJson` (i.e. `envelope.json()`). -/
def Envelope.serializeRaw (e : Envelope) : Raw :=
  Raw.json e.toJson

end comm_protocol

namespace agent_core

open comm_protocol

/-- One entry of the Redis stream: a broker-assigned identifier (an
opaque, monotonically ordered position marker, modelled as a natural
number) and a field table mapping field keys to raw string values. -/
structure Entry where
  id : Nat
  fields : List (String × Raw)

/-- Python-`dict.get` over an entry's field table (last write wins, as in
`dictGet`). -/
def fieldGet (fields : List (String × Raw)) (key : String) : Option Raw :=
  fields.foldl (fun acc kv => if kv.1 == key then some kv.2 else acc) none

/-- The `last_id` cursor of `RedisBus.subscribe`: initially the sentinel
`"$"` (only entries appended after subscription), afterwards the
identifier of an entry. -/
inductive StreamPos where
  | latest : StreamPos
  | at (id : Nat) : StreamPos
deriving DecidableEq, Repr

/-- The observable outcome of processing one `xread` batch inside
`RedisBus.subscribe`: the updated `last_id` cursor, the envelopes yielded
to the consumer in order, and the parse-failure log lines printed. -/
structure BatchResult where
  pos : StreamPos
  yielded : List Envelope
  logs : List String

/-- The parse-failure log line of `RedisBus.subscribe`. -/
def parseFailLog (exc : String) : String :=
  "[RedisBus] Failed to parse envelope: " ++ exc

/-- The inner loop of `RedisBus.subscribe` over the messages of one
stream, threading the `last_id` cursor. For each entry, in source order:
`last_id = message_id`; `raw = data.get("data")`; if `raw` is `None` the
entry is skipped (`continue`); otherwise `Envelope.parse_raw(raw)` either
yields the envelope or, on any exception, prints the parse-failure line
and continues. -/
def processEntries (r : Nat) (now : DateTime) (pos : StreamPos) :
    List Entry → BatchResult
  | [] => { pos := pos, yielded := [], logs := [] }
  | e :: rest =>
    let tail := processEntries r now (StreamPos.at e.id) rest
    match fieldGet e.fields "data" with
    | none => tail
    | some raw =>
      match Envelope.parseRaw raw r now with
      | Except.ok env => { tail with yielded := env :: tail.yielded }
      | Except.error exc => { tail with logs := parseFailLog exc :: tail.logs }

/-- The outer loop of one `xread` batch: `for _stream, messages in
streams`, processing each stream's messages in order with the shared
`last_id` cursor. -/
def processStreams (r : Nat) (now : DateTime) (pos : StreamPos) :
    List (String × List Entry) → BatchResult
  | [] => { pos := pos, yielded := [], logs := [] }
  | (_, msgs) :: rest =>
    let first := processEntries r now pos msgs
    let tail := processStreams r now first.pos rest
    { pos := tail.pos, yielded := first.yielded ++ tail.yielded,
      logs := first.logs ++ tail.logs }

/-- The broker side of `xread({stream: pos}, block=0)` on a stream whose
current contents are `log`: every entry appended strictly after position
`pos` (for the `"$"` sentinel, strictly after the current end of the
log, i.e. nothing from `log` itself). -/
def xreadModel (log : List Entry) : StreamPos → List Entry
  | StreamPos.latest => []
  | StreamPos.at n => log.filter fun e => decide (n < e.id)

/-- `BaseAgent._should_handle`: `rcpt == agent_id or rcpt == "broadcast"
or (isinstance(rcpt, list) and agent_id in rcpt)`. A string recipient is
compared against the identifier and the sentinel; only a list recipient
reaches the membership test. -/
def shouldHandle (agent_id : String) (envelope : Envelope) : Bool :=
  match envelope.recipient with
  | Recipient.single s => s == agent_id || s == "broadcast"
  | Recipient.list ss => ss.contains agent_id

/-- A concrete agent's `handle` implementation, observed by its outcome:
either the list of envelopes it published via the bus, in order, or the
exception it raised. -/
def Handler : Type := Envelope → Except String (List Envelope)

/-- The handler-error log line of `BaseAgent._safe_handle`. -/
def handleErrLog (agent_id exc : String) : String :=
  "[" ++ agent_id ++ "] Error while handling message: " ++ exc

/-- `BaseAgent._safe_handle`: run the concrete handler inside
`try/except Exception`; on success the published envelopes stand, on any
exception the error line is printed and the exception is discarded. The
result is total — `_safe_handle` itself never raises. -/
def safeHandle (agent_id : String) (handler : Handler) (envelope : Envelope) :
    List Envelope × List String :=
  match handler envelope with
  | Except.ok published => (published, [])
  | Except.error exc => ([], [handleErrLog agent_id exc])

/-- The dispatch loop of `BaseAgent.run_forever` over a finite prefix of
the subscription stream: each received envelope is passed through the
recipient filter and, when it matches, dispatched to `_safe_handle`; the
loop then moves on to the next envelope unconditionally. The result is
the list of dispatch outcomes in arrival order. -/
def runForever (agent_id : String) (handler : Handler)
    (incoming : List Envelope) : List (List Envelope × List String) :=
  match incoming with
  | [] => []
  | e :: rest =>
    if shouldHandle agent_id e then
      safeHandle agent_id handler e :: runForever agent_id handler rest
    else
      runForever agent_id handler rest

end agent_core

namespace captain

open comm_protocol agent_core

/-- `CaptainAgent.handle`: construct the acknowledgment envelope through
the validating `Envelope(...)` constructor — `sender` is this agent's
identifier, `recipient` the inbound sender, `priority` copied unchanged,
`kind` the literal `"response"`, `content` the `status`/`echo` mapping —
and publish it. The published list is the observable outcome; a
constructor validation error would escape to `_safe_handle` as an
exception. -/
def captainHandle (agent_id : String) (r : Nat) (now : DateTime)
    (envelope : Envelope) : Except String (List Envelope) := do
  let response ← mkEnvelope
    { sender := some agent_id,
      recipient := some (Recipient.single envelope.sender),
      priority := some envelope.priority,
      kind := some "response",
      content := some
        [("status", Json.str "ack"), ("echo", Json.obj envelope.content)] }
    r now
  Except.ok [response]

end captain

/-! ## Helper lemmas: canonical shapes of the generated defaults -/

theorem isHexLowerChar_hexDigit (n : Nat) : isHexLowerChar (hexDigit n) = true := by
  unfold hexDigit
  generalize hm : n % 16 = m
  have h : m < 16 := by omega
  interval_cases m <;> decide

theorem isDecChar_decDigit (n : Nat) : isDecChar (decDigit n) = true := by
  unfold decDigit
  generalize hm : n % 10 = m
  have h : m < 10 := by omega
  interval_cases m <;> decide

theorem isHexLowerChar_nib (n i : Nat) : isHexLowerChar (nib n i) = true := by
  unfold nib; exact isHexLowerChar_hexDigit _

/-- `str(uuid.uuid4())` is a canonical UUID string for every entropy. -/
theorem uuid4Str_canonical (r : Nat) : isUuidCanonical (uuid4Str r) = true := by
  simp [uuid4Str, uuidChars, isUuidCanonical, hexRun, isHexLowerChar_nib]

/-- `str(uuid.uuid4())` always has the canonical 36-character length. -/
theorem uuid4Str_length (r : Nat) : (uuid4Str r).length = 36 := rfl

theorem uuid4Str_ne_empty (r : Nat) : uuid4Str r ≠ "" := by
  intro h
  have h36 := uuid4Str_length r
  rw [h] at h36
  exact absurd h36 (by decide)

/-- `isoformat()` always renders in the canonical ISO-8601 shape. -/
theorem isoformat_isIsoTs (d : DateTime) : isIsoTs d.isoformat = true := by
  unfold DateTime.isoformat isIsoTs
  by_cases hm : d.microsecond == 0 <;>
    simp [hm, pad4, pad2, pad6, decRun, isDecChar_decDigit]

theorem isoformat_ne_empty (d : DateTime) : d.isoformat ≠ "" := by
  simp [DateTime.isoformat, pad4, String.ext_iff]

/-! ## Helper lemmas: construction, validity and the wire round trip -/

namespace comm_protocol

/-- Every envelope the constructor accepts satisfies the schema
constraints — whether a field was supplied (and hence validated) or
filled in by its default. -/
theorem mk_ok_valid (args : CtorArgs) (r : Nat) (now : DateTime)
    (e : Envelope) (h : mkEnvelope args r now = Except.ok e) :
    e.valid = true := by
  rcases args with ⟨mid, ts, sender, rcpt, p, content, kind⟩
  cases sender with
  | none => simp [mkEnvelope] at h
  | some s =>
  cases rcpt with
  | none => simp [mkEnvelope] at h
  | some rc =>
  cases kind with
  | none => simp [mkEnvelope] at h
  | some k =>
  simp only [mkEnvelope] at h
  split at h
  · split at h
    · split at h
      · split at h
        · injection h with he
          subst he
          cases mid <;> cases ts <;> cases p <;>
            simp_all [Envelope.valid, Option.all, Option.getD,
              uuid4Str_canonical, isoformat_isIsoTs]
        · exact Except.noConfusion h
      · exact Except.noConfusion h
    · exact Except.noConfusion h
  · exact Except.noConfusion h

theorem decodeStrList_map_str (ss : List String) :
    decodeStrList (ss.map Json.str) = Except.ok ss := by
  induction ss with
  | nil => rfl
  | cons x xs ih => simp [decodeStrList, ih, Except.map]

theorem fromJson_toJson_recipient (rc : Recipient) :
    Recipient.fromJson rc.toJson = Except.ok rc := by
  cases rc with
  | single s => rfl
  | list ss =>
    simp [Recipient.toJson, Recipient.fromJson, decodeStrList_map_str,
      Except.map]

/-- Deserializing the serialization of any schema-valid envelope
reproduces it exactly, whatever generators the parser carries for the
(unused, since every field is present on the wire) defaults. -/
theorem roundtrip_of_valid (e : Envelope) (h : e.valid = true)
    (r : Nat) (now : DateTime) :
    Envelope.parseRaw e.serializeRaw r now = Except.ok e := by
  simp only [Envelope.valid, Bool.and_eq_true, decide_eq_true_eq] at h
  obtain ⟨⟨⟨hkind, hp1, hp2⟩, hmid⟩, hts⟩ := h
  rcases e with ⟨mid, ts, sender, rcpt, p, kind, content⟩
  simp only [Envelope.parseRaw, Envelope.serializeRaw, Envelope.toJson,
    Envelope.parseJson, dictGet, List.foldl] at *
  simp [fromJson_toJson_recipient, mkEnvelope, Option.all, Option.getD,
    hkind, hmid, hts, hp1, hp2, bind, Except.bind, pure, Except.pure]

end comm_protocol

namespace agent_core

open comm_protocol

theorem processEntries_append (r : Nat) (now : DateTime) (pos : StreamPos)
    (xs ys : List Entry) :
    processEntries r now pos (xs ++ ys) =
      { pos := (processEntries r now (processEntries r now pos xs).pos ys).pos,
        yielded := (processEntries r now pos xs).yielded ++
          (processEntries r now (processEntries r now pos xs).pos ys).yielded,
        logs := (processEntries r now pos xs).logs ++
          (processEntries r now (processEntries r now pos xs).pos ys).logs } := by
  induction xs generalizing pos with
  | nil => simp [processEntries]
  | cons x xs ih =>
    cases hf : fieldGet x.fields "data" with
    | none => simp [processEntries, hf, ih]
    | some raw =>
      cases hp : Envelope.parseRaw raw r now <;>
        simp [processEntries, hf, hp, ih]

theorem processEntries_pos (r : Nat) (now : DateTime) (pos : StreamPos)
    (es : List Entry) (h : es ≠ []) :
    (processEntries r now pos es).pos = StreamPos.at (es.getLast h).id := by
  induction es generalizing pos with
  | nil => exact absurd rfl h
  | cons e rest ih =>
    cases rest with
    | nil =>
      cases hf : fieldGet e.fields "data" with
      | none => simp [processEntries, hf, List.getLast]
      | some raw =>
        cases hp : Envelope.parseRaw raw r now <;>
          simp [processEntries, hf, hp, List.getLast]
    | cons y ys =>
      have hne : (y :: ys) ≠ [] := by simp
      have htail := ih (StreamPos.at e.id) hne
      have hlast : (e :: y :: ys).getLast h = (y :: ys).getLast hne := rfl
      cases hf : fieldGet e.fields "data" with
      | none => simpa [processEntries, hf, hlast] using htail
      | some raw =>
        cases hp : Envelope.parseRaw raw r now <;>
          simpa [processEntries, hf, hp, hlast] using htail

theorem mem_id_le_getLast (l : List Entry) (h : l ≠ [])
    (hs : List.Pairwise (fun a b => a.id < b.id) l)
    (x : Entry) (hx : x ∈ l) : x.id ≤ (l.getLast h).id := by
  induction l with
  | nil => exact absurd rfl h
  | cons e rest ih =>
    cases rest with
    | nil =>
      simp at hx
      simp [hx, List.getLast]
    | cons y ys =>
      have hne : (y :: ys) ≠ [] := by simp
      have hlast : (e :: y :: ys).getLast h = (y :: ys).getLast hne := rfl
      rw [hlast]
      rcases List.mem_cons.mp hx with hxe | hxr
      · subst hxe
        have hall := (List.pairwise_cons.mp hs).1
        have hmem : (y :: ys).getLast hne ∈ y :: ys := List.getLast_mem hne
        exact le_of_lt (hall _ hmem)
      · exact ih hne (List.pairwise_cons.mp hs).2 hxr

end agent_core

namespace comm_protocol

/-- Inversion of a successful construction: which arguments must have been
present and valid, and how the result's fields relate to them. -/
theorem mk_ok_inversion (args : CtorArgs) (r : Nat) (now : DateTime)
    (e : Envelope) (h : mkEnvelope args r now = Except.ok e) :
    (∃ s, args.sender = some s) ∧ (∃ rc, args.recipient = some rc) ∧
    (∃ k, args.kind = some k ∧ kindValid k = true) ∧
    (∀ p, args.priority = some p → 1 ≤ p ∧ p ≤ 5) ∧
    e.priority = args.priority.getD 3 ∧
    e.content = args.content.getD [] ∧
    e.message_id = args.message_id.getD (uuid4Str r) ∧
    e.ts = args.ts.getD now.isoformat := by
  rcases args with ⟨mid, ts, sender, rcpt, p, content, kind⟩
  cases sender with
  | none => simp [mkEnvelope] at h
  | some s =>
  cases rcpt with
  | none => simp [mkEnvelope] at h
  | some rc =>
  cases kind with
  | none => simp [mkEnvelope] at h
  | some k =>
  simp only [mkEnvelope] at h
  split at h
  · split at h
    · split at h
      · split at h
        · injection h with he
          subst he
          rename_i hkv hpr hmid hts
          refine ⟨⟨s, rfl⟩, ⟨rc, rfl⟩, ⟨k, rfl, hkv⟩, ?_, rfl, rfl, rfl, rfl⟩
          intro q hq
          subst hq
          simp [Option.all] at hpr
          exact hpr
        · exact Except.noConfusion h
      · exact Except.noConfusion h
    · exact Except.noConfusion h
  · exact Except.noConfusion h

end comm_protocol

/-! ## Concrete sample values used by the witnesses -/

open comm_protocol agent_core captain

def nowA : DateTime :=
  { year := 2024, month := 5, day := 1, hour := 12, minute := 30,
    second := 5, microsecond := 123456 }

def nowB : DateTime :=
  { year := 2025, month := 1, day := 2, hour := 3, minute := 4,
    second := 5, microsecond := 0 }

def uuidA : String := "00000000-0000-4000-8000-000000000000"

def tsA : String := "2024-05-01T12:30:05.123456"

/-- The inbound envelope of the spec's Captain acknowledgment scenario. -/
def envA : Envelope :=
  { message_id := uuidA, ts := tsA, sender := "sergeant",
    recipient := Recipient.single "captain", priority := 2,
    kind := "request", content := [("task", Json.str "patrol")] }

def envB : Envelope :=
  { message_id := uuidA, ts := tsA, sender := "detective",
    recipient := Recipient.single "captain", priority := 4,
    kind := "notification", content := [] }

/-- An envelope addressed to a recipient list containing `"captain"`. -/
def envListIn : Envelope :=
  { envA with recipient := Recipient.list ["sergeant", "captain"] }

/-- An envelope addressed to a recipient list not containing `"captain"`. -/
def envListOut : Envelope :=
  { envA with recipient := Recipient.list ["sergeant", "detective"] }

/-- A handler that raises on every envelope. -/
def failHandler : Handler := fun _ => Except.error "boom"

/-! ## The claims -/

/-- Claim C1: for every valid Envelope constructed with all fields
supplied (message_id, timestamp, sender, recipient, priority, kind,
content), deserializing the JSON serialization of that envelope yields an
envelope equal to the original in every field, including the message_id
and the timestamp. (The parser's ambient generators `r'`, `now'` are
arbitrary: every field is present on the wire, so no default fires.) -/
theorem envelope_roundtrip (mid ts sender : String) (rc : Recipient)
    (p : Int) (content : List (String × Json)) (kind : String)
    (r r' : Nat) (now now' : DateTime) (e : Envelope)
    (h : mkEnvelope
      { message_id := some mid, ts := some ts, sender := some sender,
        recipient := some rc, priority := some p, content := some content,
        kind := some kind } r now = Except.ok e) :
    Envelope.parseRaw e.serializeRaw r' now' = Except.ok e :=
  roundtrip_of_valid e (mk_ok_valid _ r now e h) r' now'

theorem envelope_roundtrip_witness :
    Envelope.parseRaw envA.serializeRaw 7 nowB = Except.ok envA :=
  envelope_roundtrip uuidA tsA "sergeant" (Recipient.single "captain") 2
    [("task", Json.str "patrol")] "request" 0 7 nowA nowB envA (by rfl)

/-- Claim C2: for every inbound envelope it handles (hence with the
schema's priority range, enforced on every envelope entering the system),
the Captain agent's handler publishes exactly one new envelope, whose
sender is the Captain's own identifier, whose recipient is the inbound
envelope's sender, whose kind is "response", whose priority equals the
inbound envelope's priority, and whose content binds "status" to "ack"
and "echo" to the entire inbound envelope's content. -/
theorem captain_ack (agent_id : String) (r : Nat) (now : DateTime)
    (env : Envelope) (h1 : 1 ≤ env.priority) (h2 : env.priority ≤ 5) :
    captainHandle agent_id r now env = Except.ok
      [{ message_id := uuid4Str r, ts := now.isoformat, sender := agent_id,
         recipient := Recipient.single env.sender, priority := env.priority,
         kind := "response",
         content := [("status", Json.str "ack"),
                     ("echo", Json.obj env.content)] }] := by
  simp [captainHandle, mkEnvelope, Option.all, Option.getD, kindValid,
    h1, h2, bind, Except.bind]

theorem captain_ack_witness :
    captainHandle "captain" 7 nowA envA = Except.ok
      [{ message_id := uuid4Str 7, ts := nowA.isoformat, sender := "captain",
         recipient := Recipient.single "sergeant", priority := 2,
         kind := "response",
         content := [("status", Json.str "ack"),
                     ("echo", Json.obj [("task", Json.str "patrol")])] }] :=
  captain_ack "captain" 7 nowA envA (by decide) (by decide)

/-- Claim C3: the recipient filter matches an envelope iff its recipient
equals the agent's identifier exactly, or equals the literal string
"broadcast", or is a list containing the agent's identifier; in every
other case the envelope is dropped by the receive loop without being
dispatched. -/
theorem recipient_filter (agent_id : String) (handler : Handler)
    (env : Envelope) :
    (shouldHandle agent_id env = true ↔
      env.recipient = Recipient.single agent_id ∨
      env.recipient = Recipient.single "broadcast" ∨
      ∃ ss, env.recipient = Recipient.list ss ∧ agent_id ∈ ss) ∧
    (shouldHandle agent_id env = false →
      runForever agent_id handler [env] = []) := by
  constructor
  · cases henv : env.recipient with
    | single s => simp [shouldHandle, henv]
    | list ss => simp [shouldHandle, henv, List.contains, List.elem_eq_mem]
  · intro h
    simp [runForever, h]

theorem recipient_filter_witness :
    shouldHandle "captain" envListIn = true ∧
    runForever "captain" failHandler [envListOut] = [] :=
  ⟨(recipient_filter "captain" failHandler envListIn).1.mpr
      (Or.inr (Or.inr ⟨["sergeant", "captain"], rfl, by decide⟩)),
    (recipient_filter "captain" failHandler envListOut).2 (by rfl)⟩

/-! Additional sample constructor-argument sets for the validation claims. -/

def argsP0 : CtorArgs :=
  { sender := some "a", recipient := some (Recipient.single "b"),
    priority := some 0, kind := some "request" }

def argsP6 : CtorArgs :=
  { sender := some "a", recipient := some (Recipient.single "b"),
    priority := some 6, kind := some "request" }

def argsBadKind : CtorArgs :=
  { sender := some "a", recipient := some (Recipient.single "b"),
    kind := some "unknown" }

def argsNoSender : CtorArgs :=
  { recipient := some (Recipient.single "b"), kind := some "request" }

def argsNoRecipient : CtorArgs :=
  { sender := some "a", kind := some "request" }

/-- Constructor arguments with every optional field omitted. -/
def argsMin : CtorArgs :=
  { sender := some "a", recipient := some (Recipient.single "b"),
    kind := some "request" }

/-- The envelope `argsMin` constructs with entropy 0 and clock `nowA`. -/
def envMin : Envelope :=
  { message_id := uuid4Str 0, ts := nowA.isoformat, sender := "a",
    recipient := Recipient.single "b", priority := 3, kind := "request",
    content := [] }

/-- Claim C4: construction with priority 0, priority 6, a kind outside the
four allowed tags, or a missing sender or recipient fails with a
validation error in every such case; omitted priority defaults to 3,
omitted content to the empty mapping, and omitted message_id / timestamp
are auto-populated with non-empty, well-formed values. -/
theorem validation_boundary (args : CtorArgs) (r : Nat) (now : DateTime) :
    (args.priority = some 0 → (mkEnvelope args r now).isOk = false) ∧
    (args.priority = some 6 → (mkEnvelope args r now).isOk = false) ∧
    (∀ k, args.kind = some k → kindValid k = false →
      (mkEnvelope args r now).isOk = false) ∧
    (args.sender = none → (mkEnvelope args r now).isOk = false) ∧
    (args.recipient = none → (mkEnvelope args r now).isOk = false) ∧
    (args.priority = none → ∀ e, mkEnvelope args r now = Except.ok e →
      e.priority = 3) ∧
    (args.content = none → ∀ e, mkEnvelope args r now = Except.ok e →
      e.content = []) ∧
    (args.message_id = none → ∀ e, mkEnvelope args r now = Except.ok e →
      e.message_id = uuid4Str r ∧ e.message_id ≠ "" ∧
      isUuidCanonical e.message_id = true) ∧
    (args.ts = none → ∀ e, mkEnvelope args r now = Except.ok e →
      e.ts = now.isoformat ∧ e.ts ≠ "" ∧ isIsoTs e.ts = true) := by
  refine ⟨?_, ?_, ?_, ?_, ?_, ?_, ?_, ?_, ?_⟩
  · intro hp
    cases hmk : mkEnvelope args r now with
    | error _ => rfl
    | ok e =>
      obtain ⟨_, _, _, hpr, _⟩ := mk_ok_inversion args r now e hmk
      have := hpr 0 hp
      omega
  · intro hp
    cases hmk : mkEnvelope args r now with
    | error _ => rfl
    | ok e =>
      obtain ⟨_, _, _, hpr, _⟩ := mk_ok_inversion args r now e hmk
      have := hpr 6 hp
      omega
  · intro k hk hkv
    cases hmk : mkEnvelope args r now with
    | error _ => rfl
    | ok e =>
      obtain ⟨_, _, ⟨k', hk', hkv'⟩, _⟩ := mk_ok_inversion args r now e hmk
      rw [hk] at hk'
      injection hk' with hkk
      rw [← hkk] at hkv'
      rw [hkv] at hkv'
      exact Bool.noConfusion hkv'
  · intro hs
    cases hmk : mkEnvelope args r now with
    | error _ => rfl
    | ok e =>
      obtain ⟨⟨s, hs'⟩, _⟩ := mk_ok_inversion args r now e hmk
      rw [hs] at hs'
      exact Option.noConfusion hs'
  · intro hr
    cases hmk : mkEnvelope args r now with
    | error _ => rfl
    | ok e =>
      obtain ⟨_, ⟨rc, hr'⟩, _⟩ := mk_ok_inversion args r now e hmk
      rw [hr] at hr'
      exact Option.noConfusion hr'
  · intro hp e hmk
    obtain ⟨_, _, _, _, hpe, _⟩ := mk_ok_inversion args r now e hmk
    rw [hpe, hp]
    rfl
  · intro hc e hmk
    obtain ⟨_, _, _, _, _, hce, _⟩ := mk_ok_inversion args r now e hmk
    rw [hce, hc]
    rfl
  · intro hm e hmk
    obtain ⟨_, _, _, _, _, _, hme, _⟩ := mk_ok_inversion args r now e hmk
    rw [hme, hm]
    exact ⟨rfl, uuid4Str_ne_empty r, uuid4Str_canonical r⟩
  · intro ht e hmk
    obtain ⟨_, _, _, _, _, _, _, hte⟩ := mk_ok_inversion args r now e hmk
    rw [hte, ht]
    exact ⟨rfl, isoformat_ne_empty now, isoformat_isIsoTs now⟩

theorem validation_boundary_witness :
    (mkEnvelope argsP0 0 nowA).isOk = false ∧
    (mkEnvelope argsP6 0 nowA).isOk = false ∧
    (mkEnvelope argsBadKind 0 nowA).isOk = false ∧
    (mkEnvelope argsNoSender 0 nowA).isOk = false ∧
    (mkEnvelope argsNoRecipient 0 nowA).isOk = false ∧
    envMin.priority = 3 ∧
    envMin.content = [] ∧
    (envMin.message_id = uuid4Str 0 ∧ envMin.message_id ≠ "" ∧
      isUuidCanonical envMin.message_id = true) ∧
    (envMin.ts = nowA.isoformat ∧ envMin.ts ≠ "" ∧
      isIsoTs envMin.ts = true) :=
  ⟨(validation_boundary argsP0 0 nowA).1 rfl,
   (validation_boundary argsP6 0 nowA).2.1 rfl,
   (validation_boundary argsBadKind 0 nowA).2.2.1 "unknown" rfl (by decide),
   (validation_boundary argsNoSender 0 nowA).2.2.2.1 rfl,
   (validation_boundary argsNoRecipient 0 nowA).2.2.2.2.1 rfl,
   (validation_boundary argsMin 0 nowA).2.2.2.2.2.1 rfl envMin (by rfl),
   (validation_boundary argsMin 0 nowA).2.2.2.2.2.2.1 rfl envMin (by rfl),
   (validation_boundary argsMin 0 nowA).2.2.2.2.2.2.2.1 rfl envMin (by rfl),
   (validation_boundary argsMin 0 nowA).2.2.2.2.2.2.2.2 rfl envMin (by rfl)⟩

/-- Claim C5: if a dispatched handler raises any failure, the failure is
caught at the dispatch boundary, logged with the agent's identifier and
the error, and discarded (`_safe_handle` returns normally with no
publishes), and the receive loop still dispatches a subsequently received
matching envelope. -/
theorem handler_isolation (agent_id : String) (handler : Handler)
    (x y : Envelope) (exc : String)
    (hfail : handler x = Except.error exc)
    (hx : shouldHandle agent_id x = true)
    (hy : shouldHandle agent_id y = true) :
    safeHandle agent_id handler x = ([], [handleErrLog agent_id exc]) ∧
    runForever agent_id handler [x, y] =
      [([], [handleErrLog agent_id exc]),
       safeHandle agent_id handler y] := by
  constructor
  · simp [safeHandle, hfail]
  · simp [runForever, hx, hy, safeHandle, hfail]

theorem handler_isolation_witness :
    safeHandle "captain" failHandler envA =
      ([], [handleErrLog "captain" "boom"]) ∧
    runForever "captain" failHandler [envA, envB] =
      [([], [handleErrLog "captain" "boom"]),
       safeHandle "captain" failHandler envB] :=
  handler_isolation "captain" failHandler envA envB "boom" rfl rfl rfl

/-- Claim C9, counterexample: constructing an envelope whose sender is the
empty string does not fail — it succeeds, yielding an envelope with the
empty sender (the constructor only requires the sender field to be
present; emptiness is not checked). -/
theorem empty_sender_counterexample :
    mkEnvelope
      { sender := some "", recipient := some (Recipient.single "captain"),
        kind := some "request" } 0 nowA
      = Except.ok
        { message_id := uuid4Str 0, ts := nowA.isoformat, sender := "",
          recipient := Recipient.single "captain", priority := 3,
          kind := "request", content := [] } := by
  rfl

/-- Claim C9, amended: constructing an envelope whose sender is the empty
string succeeds (for any present recipient and legal kind); construction
only requires the sender field to be present and does not validate
non-emptiness. -/
theorem empty_sender_accepted (rc : Recipient) (k : String) (r : Nat)
    (now : DateTime) (hk : kindValid k = true) :
    mkEnvelope { sender := some "", recipient := some rc, kind := some k }
        r now
      = Except.ok
        { message_id := uuid4Str r, ts := now.isoformat, sender := "",
          recipient := rc, priority := 3, kind := k, content := [] } := by
  simp [mkEnvelope, hk, Option.all, Option.getD]

theorem empty_sender_accepted_witness :
    mkEnvelope
      { sender := some "", recipient := some (Recipient.single "x"),
        kind := some "notification" } 3 nowB
      = Except.ok
        { message_id := uuid4Str 3, ts := nowB.isoformat, sender := "",
          recipient := Recipient.single "x", priority := 3,
          kind := "notification", content := [] } :=
  empty_sender_accepted (Recipient.single "x") "notification" 3 nowB
    (by decide)

/-- The envelope constructed with an empty recipient list (claim C10). -/
def envEmptyRc : Envelope :=
  { message_id := uuid4Str 0, ts := nowA.isoformat, sender := "a",
    recipient := Recipient.list [], priority := 3, kind := "request",
    content := [] }

/-- Claim C10: an envelope whose recipient is the empty list is accepted
at construction, and the recipient filter matches it for no agent
identifier, so every agent silently drops it. -/
theorem empty_recipient_list (s k : String) (r : Nat) (now : DateTime)
    (hk : kindValid k = true) :
    mkEnvelope
        { sender := some s, recipient := some (Recipient.list []),
          kind := some k } r now
      = Except.ok
        { message_id := uuid4Str r, ts := now.isoformat, sender := s,
          recipient := Recipient.list [], priority := 3, kind := k,
          content := [] } ∧
    (∀ env : Envelope, env.recipient = Recipient.list [] →
      ∀ agent_id, shouldHandle agent_id env = false) := by
  constructor
  · simp [mkEnvelope, hk, Option.all, Option.getD]
  · intro env henv agent_id
    simp [shouldHandle, henv, List.contains]

theorem empty_recipient_list_witness :
    mkEnvelope
        { sender := some "a", recipient := some (Recipient.list []),
          kind := some "request" } 0 nowA
      = Except.ok envEmptyRc ∧
    shouldHandle "captain" envEmptyRc = false :=
  ⟨(empty_recipient_list "a" "request" 0 nowA (by decide)).1,
   (empty_recipient_list "a" "request" 0 nowA (by decide)).2
     envEmptyRc rfl "captain"⟩

/-! Sample stream entries for the subscription claims. -/

/-- An entry with no payload field at all. -/
def entryNoData : Entry := { id := 1, fields := [] }

/-- An entry whose payload is not valid JSON. -/
def entryBad : Entry := { id := 1, fields := [("data", Raw.invalid "oops not json")] }

/-- An entry carrying the valid envelope `envA`. -/
def entryGood : Entry := { id := 2, fields := [("data", envA.serializeRaw)] }

/-- A later entry carrying the valid envelope `envB`. -/
def entryLater : Entry := { id := 3, fields := [("data", envB.serializeRaw)] }

/-- Claim C6: a log entry whose payload is present but fails to
deserialize is skipped — it contributes no yielded envelope, exactly one
parse-failure log line, and the subscription (a total function here: no
failure propagates) continues yielding the envelopes of the entries after
it. -/
theorem malformed_entry_skipped (r : Nat) (now : DateTime)
    (pos : StreamPos) (pre post : List Entry) (e : Entry) (raw : Raw)
    (exc : String)
    (hpayload : fieldGet e.fields "data" = some raw)
    (hparse : Envelope.parseRaw raw r now = Except.error exc) :
    (processEntries r now pos (pre ++ e :: post)).yielded =
      (processEntries r now pos pre).yielded ++
      (processEntries r now (StreamPos.at e.id) post).yielded ∧
    (processEntries r now pos (pre ++ e :: post)).logs =
      (processEntries r now pos pre).logs ++
      parseFailLog exc ::
        (processEntries r now (StreamPos.at e.id) post).logs := by
  rw [processEntries_append r now pos pre (e :: post)]
  constructor <;> simp [processEntries, hpayload, hparse]

theorem malformed_entry_skipped_witness :
    (processEntries 0 nowA (StreamPos.at 0)
        ([] ++ entryBad :: [entryGood])).yielded =
      (processEntries 0 nowA (StreamPos.at 0) []).yielded ++
      (processEntries 0 nowA (StreamPos.at 1) [entryGood]).yielded ∧
    (processEntries 0 nowA (StreamPos.at 0)
        ([] ++ entryBad :: [entryGood])).logs =
      (processEntries 0 nowA (StreamPos.at 0) []).logs ++
      parseFailLog "invalid JSON" ::
        (processEntries 0 nowA (StreamPos.at 1) [entryGood]).logs :=
  malformed_entry_skipped 0 nowA (StreamPos.at 0) [] [entryGood] entryBad
    (Raw.invalid "oops not json") "invalid JSON" rfl rfl

/-- Claim C6, evaluated at the witness input: the malformed entry yields
nothing and is logged, while the valid entry appended after it is still
yielded. -/
theorem malformed_entry_stream_continues :
    (processEntries 0 nowA (StreamPos.at 0) [entryBad, entryGood]).yielded
      = [envA] ∧
    (processEntries 0 nowA (StreamPos.at 0) [entryBad, entryGood]).logs
      = [parseFailLog "invalid JSON"] := by
  constructor <;> rfl

/-- Claim C8: a log entry lacking the payload field `"data"` is skipped
without being yielded and without any parse-error log line, and the
subscription continues with the entries after it. -/
theorem empty_payload_skipped (r : Nat) (now : DateTime) (pos : StreamPos)
    (pre post : List Entry) (e : Entry)
    (hpayload : fieldGet e.fields "data" = none) :
    (processEntries r now pos (pre ++ e :: post)).yielded =
      (processEntries r now pos pre).yielded ++
      (processEntries r now (StreamPos.at e.id) post).yielded ∧
    (processEntries r now pos (pre ++ e :: post)).logs =
      (processEntries r now pos pre).logs ++
      (processEntries r now (StreamPos.at e.id) post).logs := by
  rw [processEntries_append r now pos pre (e :: post)]
  constructor <;> simp [processEntries, hpayload]

theorem empty_payload_skipped_witness :
    (processEntries 0 nowA (StreamPos.at 0)
        ([] ++ entryNoData :: [entryGood])).yielded =
      (processEntries 0 nowA (StreamPos.at 0) []).yielded ++
      (processEntries 0 nowA (StreamPos.at 1) [entryGood]).yielded ∧
    (processEntries 0 nowA (StreamPos.at 0)
        ([] ++ entryNoData :: [entryGood])).logs =
      (processEntries 0 nowA (StreamPos.at 0) []).logs ++
      (processEntries 0 nowA (StreamPos.at 1) [entryGood]).logs :=
  empty_payload_skipped 0 nowA (StreamPos.at 0) [] [entryGood]
    entryNoData rfl

/-- Claim C7: after a batch returned by the broker is processed, the
tracked position is the identifier of the last entry consumed — skipped
entries included — and consequently, in the `xread` model (entries
strictly after the given position), no entry of the batch can be returned
by the next blocking read, while every entry appended after the last
consumed one is. -/
theorem position_tracking (r : Nat) (now : DateTime) (pos : StreamPos)
    (batch : List Entry) (hne : batch ≠ [])
    (hsorted : List.Pairwise (fun a b => a.id < b.id) batch) :
    (processEntries r now pos batch).pos =
      StreamPos.at (batch.getLast hne).id ∧
    (∀ log2 : List Entry, ∀ x ∈ batch,
      x ∉ xreadModel log2 (StreamPos.at (batch.getLast hne).id)) ∧
    (∀ log2 : List Entry, ∀ x ∈ log2, (batch.getLast hne).id < x.id →
      x ∈ xreadModel log2 (StreamPos.at (batch.getLast hne).id)) := by
  refine ⟨processEntries_pos r now pos batch hne, ?_, ?_⟩
  · intro log2 x hx hmem
    have hle := mem_id_le_getLast batch hne hsorted x hx
    simp [xreadModel, List.mem_filter] at hmem
    omega
  · intro log2 x hx hlt
    simp [xreadModel, List.mem_filter]
    exact ⟨hx, hlt⟩

theorem position_tracking_witness :
    (processEntries 0 nowA (StreamPos.at 0)
        [entryNoData, entryGood]).pos = StreamPos.at 2 ∧
    entryNoData ∉
      xreadModel [entryNoData, entryGood, entryLater] (StreamPos.at 2) ∧
    entryLater ∈
      xreadModel [entryNoData, entryGood, entryLater] (StreamPos.at 2) := by
  have h := position_tracking 0 nowA (StreamPos.at 0)
    [entryNoData, entryGood] (List.cons_ne_nil _ _)
    (by simp [List.pairwise_cons, entryNoData, entryGood])
  exact ⟨h.1,
    h.2.1 [entryNoData, entryGood, entryLater] entryNoData
      (List.mem_cons_self _ _),
    h.2.2 [entryNoData, entryGood, entryLater] entryLater
      (List.mem_cons_of_mem _ (List.mem_cons_of_mem _
        (List.mem_cons_self _ _))) (by decide)⟩
